import Mathlib

/-!
Shallow embedding of the FMotalleb/executor batch command orchestrator.

The embedding follows the Go sources:
* `src/executor/config.go` — `Config`, `Config.Validate`;
* `src/cmd/executor/executor.go` — `StartExecution` (range partitioning and
  the final completion/cancellation race);
* `src/cmd/executor/processor.go` — `ExecRequest`, `getVarMap`, `processor`,
  `process`, `prepareArgs`, `spawnProcess`, `spawnSubprocess`, `connectPipes`
  (the stdin-writing loop);
* the logger's shared-stream writer (`NewStdErrWriter` / `FileWriter.Write`).

Go `int` values are modelled as `Int` (the validated configurations the
claims range over never reach the 64-bit wrap-around), `uint` as `Nat`,
`time.Duration` as `Int` (nanoseconds).  OS interaction (filesystem stat
calls, template rendering, pipe creation, process start/wait results) is
passed in explicitly as oracle parameters, so every definition stays
executable.
-/

/-- Result of an `os.Stat` call, as far as `Config.Validate` inspects it:
the path is missing (stat error), is a regular file, or is a directory. -/
inductive StatRes where
  | missing : StatRes
  | file : StatRes
  | dir : StatRes
deriving DecidableEq

/-- The slice of the filesystem that `Config.Validate` consults. -/
structure FS where
  stat : String → StatRes

/-- `executor.Config` from `src/executor/config.go` (plus the `StdIn` and
`Retry` fields that `StartExecution` in `src/cmd/executor/executor.go`
reads from the same configuration value). -/
structure Config where
  Shell : String
  ShellArgs : List String
  Command : String
  StdIn : String
  WorkingDirectory : String
  Limit : Int
  Offset : Int
  BatchSize : Int
  Timeout : Int
  Parallel : Int
  Retry : Nat
  LogDir : String
  LogToStdErr : Bool

/-- The `os.Stat`/`IsDir` check `Config.Validate` performs on a directory
path when the path is non-empty (empty paths are skipped). -/
def dirCheck (fs : FS) (path missingMsg notDirMsg : String) : Option String :=
  if path = "" then none
  else
    match fs.stat path with
    | StatRes.missing => some missingMsg
    | StatRes.file => some notDirMsg
    | StatRes.dir => none

/-- `Config.Validate` from `src/executor/config.go`: returns `some errMsg`
for the first failing check, `none` when the configuration is accepted. -/
def Config.Validate (fs : FS) (c : Config) : Option String :=
  if c.Shell = "" then some "shell is required"
  else if c.Command = "" then some "command is required"
  else
    match dirCheck fs c.WorkingDirectory
      "working directory does not exist" "working directory is not a directory" with
    | some e => some e
    | none =>
      if c.Limit ≤ 0 then some "limit cannot be zero or negative"
      else if c.Offset < 0 then some "offset cannot be negative"
      else if c.Offset > c.Limit then some "offset cannot be greater than limit"
      else if c.BatchSize ≤ 0 then some "batch size must be greater than zero"
      else if c.Timeout ≤ 0 then some "timeout cannot be negative"
      else if c.Parallel ≤ 0 then some "parallel must be greater than zero"
      else
        match dirCheck fs c.LogDir
          "log directory does not exist" "log directory is not a directory" with
        | some e => some e
        | none => none

/-- `executor.ExecRequest` from `src/cmd/executor/processor.go`.  The
`rootCtx` field is not carried (cancellation is modelled at the
`StartExecution` level); everything else is kept. -/
structure ExecRequest where
  Command : String
  StdIn : String
  Offset : Int
  BatchSize : Int
  Shell : String
  ShellArgs : List String
  WorkingDirectory : String
  Timeout : Int
  Retry : Nat
  TryCount : Nat
  logRoot : String
  logToErr : Bool

/-- The request literal built in `StartExecution`'s dispatch loop for cursor
`i` and truncated batch size `size` (`TryCount` is the Go zero value 0). -/
def mkReq (cfg : Config) (i size : Int) : ExecRequest :=
  { Command := cfg.Command
    StdIn := cfg.StdIn
    Offset := i
    BatchSize := size
    Shell := cfg.Shell
    ShellArgs := cfg.ShellArgs
    WorkingDirectory := cfg.WorkingDirectory
    Timeout := cfg.Timeout
    Retry := cfg.Retry
    TryCount := 0
    logRoot := cfg.LogDir
    logToErr := cfg.LogToStdErr }

/-- The truncation in the dispatch loop: `limit := stepSize; if offset+limit
> end { limit = end - offset }`. -/
def batchSizeAt (cfg : Config) (i : Int) : Int :=
  if i + cfg.BatchSize > cfg.Limit then cfg.Limit - i else cfg.BatchSize

/-- The dispatch loop of `StartExecution`: `for i := begin; i < end;
i += stepSize`, emitting one `ExecRequest` per iteration.  The extra
`0 < cfg.BatchSize` guard makes the Lean function total: with a
non-positive step the Go loop would never terminate, and validation
(`BatchSize > 0`) keeps that branch unreachable on every run. -/
def dispatchLoop (cfg : Config) (i : Int) : List ExecRequest :=
  if h : i < cfg.Limit ∧ 0 < cfg.BatchSize then
    mkReq cfg i (batchSizeAt cfg i) :: dispatchLoop cfg (i + cfg.BatchSize)
  else []
termination_by (cfg.Limit - i).toNat
decreasing_by
  omega

/-- All jobs dispatched by one run, in dispatch order. -/
def dispatchJobs (cfg : Config) : List ExecRequest :=
  dispatchLoop cfg cfg.Offset

/-- How a run of `StartExecution` ends: `log.Fatal` on a validation failure
(the process exits, the function never returns), the premature-termination
error from the `ctx.Done()` branch of the final `select`, or a `nil`
return from the `wg.Wait` branch. -/
inductive RunOutcome where
  | fatal : RunOutcome
  | errMsg : String → RunOutcome
  | ok : RunOutcome
deriving DecidableEq

/-- `StartExecution` from `src/cmd/executor/executor.go`.  `ctxDoneFirst`
abstracts the final `select`: it is `true` exactly when the supplied root
context is cancelled/expired before the outstanding-job counter (the
`WaitGroup`) reaches zero.  The returned list is the sequence of job
requests sent on the dispatch channel (empty on the fatal path: `log.Fatal`
fires before any worker starts or any job is built). -/
def StartExecution (fs : FS) (cfg : Config) (ctxDoneFirst : Bool) :
    RunOutcome × List ExecRequest :=
  match Config.Validate fs cfg with
  | some _ => (RunOutcome.fatal, [])
  | none =>
    (if ctxDoneFirst then RunOutcome.errMsg "premature execution killed by a dead context"
     else RunOutcome.ok,
     dispatchJobs cfg)

/-- The variable mapping `ExecRequest.getVarMap` hands to the template
engine (`map[string]any` with integer values, in source listing order). -/
def ExecRequest.getVarMap (e : ExecRequest) : List (String × Int) :=
  [("offset", e.Offset), ("batchSize", e.BatchSize), ("limit", e.Offset + e.BatchSize),
   ("tryCount", (e.TryCount : Int)), ("maxTryCount", (e.Retry : Int))]

/-- The template engine `template.EvaluateTemplate` is an external
collaborator; a run is parameterised by it: given the template string and
the variable map it yields the rendered string or an error. -/
abbrev RenderFn := String → List (String × Int) → Except String String

/-- The per-job output sink chosen in `prepareArgs`: the shared stderr
stream or the rotated per-job log file. -/
inductive OutSink where
  | stderrSink : String → OutSink
  | fileSink : String → String → OutSink
deriving DecidableEq

/-- What `prepareArgs` hands to `spawnProcess`: process name, argument
vector, rendered stdin, output sink. -/
structure Prepared where
  name : String
  args : List String
  stdin : String
  out : OutSink
deriving DecidableEq

/-- `prepareArgs` from `src/cmd/executor/processor.go`: renders the command
template, then the stdin template (either failure propagates), then builds
the argument vector `ShellArgs ++ [cmd]`, the job name
`exec-<offset>-<batchSize>` and the output sink. -/
def prepareArgs (render : RenderFn) (r : ExecRequest) : Except String Prepared :=
  match render r.Command r.getVarMap with
  | Except.error e => Except.error e
  | Except.ok cmd =>
    match render r.StdIn r.getVarMap with
    | Except.error e => Except.error e
    | Except.ok stdinVal =>
      let args := r.ShellArgs ++ [cmd]
      let name := "exec-" ++ toString r.Offset ++ "-" ++ toString r.BatchSize
      let out := if r.logToErr then OutSink.stderrSink name
                 else OutSink.fileSink name r.logRoot
      Except.ok { name := name, args := args, stdin := stdinVal, out := out }

/-- What the operating system does on one attempt's subprocess: the
`proc.Start()` call fails, `proc.Process.Wait()` fails, or the process
exits with the given exit code. -/
inductive SubprocOutcome where
  | startFailure : SubprocOutcome
  | waitFailure : SubprocOutcome
  | exited : Int → SubprocOutcome
deriving DecidableEq

/-- The OS-dependent ingredients of one `spawnProcess` call: the results of
the three pipe constructions in `connectPipes` and the subprocess's fate. -/
structure AttemptEnv where
  stdoutPipeErr : Option String
  stderrPipeErr : Option String
  stdinPipeErr : Option String
  outcome : SubprocOutcome
deriving DecidableEq

/-- `connectPipes` from `src/cmd/executor/processor.go`, error paths only:
it fails on the first pipe-construction error (the copy goroutines and the
stdin-writing goroutine it launches are modelled by `stdinLoop` below). -/
def connectPipes (env : AttemptEnv) : Except String Unit :=
  match env.stdoutPipeErr with
  | some e => Except.error e
  | none =>
    match env.stderrPipeErr with
    | some e => Except.error e
    | none =>
      match env.stdinPipeErr with
      | some e => Except.error e
      | none => Except.ok ()

/-- `spawnSubprocess` from `src/cmd/executor/processor.go`: the integer it
sends on `sigChan` — `1` when `proc.Start()` fails, `-1` when the `Wait`
fails, otherwise the process's exit code. -/
def spawnSubprocess : SubprocOutcome → Int
  | SubprocOutcome.startFailure => 1
  | SubprocOutcome.waitFailure => -1
  | SubprocOutcome.exited code => code

/-- `spawnProcess` from `src/cmd/executor/processor.go`: wires the pipes,
runs `spawnSubprocess`, and classifies the signalled integer — non-zero is
the error `process exited with non-zero status: <ec>`, zero is `nil`.  The
program/args/working-directory/stdin/sink parameters are kept from the
source signature; the result is determined by the OS behaviour `env`. -/
def spawnProcess (env : AttemptEnv) (program : String) (args : List String)
    (wd stdin : String) (out : OutSink) : Except String Unit :=
  match connectPipes env with
  | Except.error e => Except.error e
  | Except.ok _ =>
    let ec := spawnSubprocess env.outcome
    if ec ≠ 0 then Except.error ("process exited with non-zero status: " ++ toString ec)
    else Except.ok ()

/-- Outcome of one iteration of the worker's retry loop (one `process`
call): the render step failed (`prepareArgs` returned an error, so
`spawnProcess` was never reached), `spawnProcess` was invoked and failed,
or `spawnProcess` was invoked and returned `nil`. -/
inductive AttemptResult where
  | renderFailed : AttemptResult
  | spawnFailed : AttemptResult
  | succeeded : AttemptResult
deriving DecidableEq

/-- `process` from `src/cmd/executor/processor.go` for one attempt:
`prepareArgs`, then (only on render success) `spawnProcess` on the derived
timeout context.  `env` is this attempt's OS behaviour. -/
def process (render : RenderFn) (env : AttemptEnv) (r : ExecRequest) : AttemptResult :=
  match prepareArgs render r with
  | Except.error _ => AttemptResult.renderFailed
  | Except.ok pa =>
    match spawnProcess env r.Shell pa.args r.WorkingDirectory pa.stdin pa.out with
    | Except.error _ => AttemptResult.spawnFailed
    | Except.ok _ => AttemptResult.succeeded

/-- Whether an iteration reached `spawnProcess` (the subprocess
supervisor). -/
def invokedSpawn : AttemptResult → Bool
  | AttemptResult.renderFailed => false
  | AttemptResult.spawnFailed => true
  | AttemptResult.succeeded => true

/-- Number of `spawnProcess` invocations recorded in an attempt trace. -/
def spawnInvocations (evs : List AttemptResult) : Nat :=
  (evs.filter invokedSpawn).length

/-- The worker's retry loop for one request — `for r.TryCount <= r.Retry {
if err := process(log, r); err != nil { r.TryCount++ } else { break } }` —
returning the trace of attempt outcomes in order.  `envs` gives the OS
behaviour of the attempt made at each `TryCount` value.  The `fuel`
argument of `runJobAux` is the loop variant `Retry + 1 - TryCount`: it
reaches 0 exactly when the loop guard goes false, so `runJob` executes the
loop exactly as written. -/
def runJobAux (render : RenderFn) (envs : Nat → AttemptEnv) :
    Nat → ExecRequest → List AttemptResult
  | 0, _ => []
  | fuel + 1, r =>
    if r.TryCount ≤ r.Retry then
      match process render (envs r.TryCount) r with
      | AttemptResult.succeeded => [AttemptResult.succeeded]
      | res => res :: runJobAux render envs fuel { r with TryCount := r.TryCount + 1 }
    else []

/-- The retry loop run to completion from the request's current state. -/
def runJob (render : RenderFn) (envs : Nat → AttemptEnv) (r : ExecRequest) :
    List AttemptResult :=
  runJobAux render envs (r.Retry + 1 - r.TryCount) r

/-- Events observable from one worker: the attempt outcomes of each job it
processes and the `wg.Done()` decrement after each job. -/
inductive WorkerEvent where
  | attempt : AttemptResult → WorkerEvent
  | wgDone : WorkerEvent
deriving DecidableEq

/-- `processor` from `src/cmd/executor/processor.go` applied to the finite
sequence of requests this worker receives from the channel before it is
closed: for each request, run the retry loop, then `wg.Done()` exactly
once.  `envs j tc` is the OS behaviour of request `j`'s attempt at
`TryCount = tc`. -/
def processor (render : RenderFn) (envs : Nat → Nat → AttemptEnv) :
    List ExecRequest → List WorkerEvent
  | [] => []
  | r :: rest =>
    (runJob render (envs 0) r).map WorkerEvent.attempt ++ [WorkerEvent.wgDone] ++
      processor render (fun j => envs (j + 1)) rest

/-!
The stdin-writing goroutine started by `connectPipes`:

```
data := []byte(stdin); mustWrite := len(data); totalWrites := 0
for totalWrites < mustWrite {
    n, err := iW.Write(data[totalWrites:mustWrite])
    if err != nil { log.Error(...) }       // error only logged
    totalWrites += n
}
iW.Close()
```

`writeRes call remaining` is the byte count the pipe's `Write` reports for
the `call`-th invocation, whose payload is the `remaining`-byte slice
`data[totalWrites:mustWrite]` (a `Write` returning an error with zero
bytes written is `writeRes call remaining = 0`: the error does not change
the control flow).  The Go loop need not terminate, so the embedding runs
it on explicit `fuel`; `none` means the fuel was exhausted with the loop
still running.  On termination it returns the list of `(totalWrites, n)`
slices consumed by each call together with the pipe-closed flag set by the
trailing `iW.Close()`. -/
def stdinLoop (writeRes : Nat → Nat → Nat) (mustWrite : Nat) :
    Nat → Nat → Nat → Option (List (Nat × Nat) × Bool)
  | 0, _, total => if total < mustWrite then none else some ([], true)
  | fuel + 1, call, total =>
    if total < mustWrite then
      let n := writeRes call (mustWrite - total)
      match stdinLoop writeRes mustWrite fuel (call + 1) (total + n) with
      | none => none
      | some (rest, closed) => some ((total, n) :: rest, closed)
    else some ([], true)

/-- The stdin goroutine terminates on some finite fuel. -/
def stdinLoopTerminates (writeRes : Nat → Nat → Nat) (mustWrite : Nat) : Prop :=
  ∃ fuel, (stdinLoop writeRes mustWrite fuel 0 0).isSome

/-- A chunk list `[(t0,n0), (t1,n1), ...]` writes the byte range starting
at `start` gaplessly and in order: `t0 = start`, `t1 = t0 + n0`, ...;
`chunksEnd` returns the position one past the last byte covered, or `none`
if the chunks are not contiguous from `start`. -/
def chunksEnd (start : Nat) : List (Nat × Nat) → Option Nat
  | [] => some start
  | (t, n) :: rest => if t = start then chunksEnd (start + n) rest else none

/-- The logger's shared-stream/file writer (`FileWriter` in the logger
package): `name` and the `hasNamePrefix` flag (`true` for the stderr
backend built by `NewStdErrWriter`, `false` for the rotated-file backend
built by `NewFileWriter`).  Bytes are modelled as `List Char`. -/
structure FileWriter where
  name : List Char
  hasNameTag : Bool

/-- `NewStdErrWriter`: the shared stderr stream with the name flag set. -/
def NewStdErrWriter (name : List Char) : FileWriter :=
  { name := name, hasNameTag := true }

/-- `NewFileWriter`: the per-job rotated file, no name flag. -/
def NewFileWriter (name : List Char) : FileWriter :=
  { name := name, hasNameTag := false }

/-- `FileWriter.Write`: the byte sequence forwarded to the underlying
output for payload `p` — `append([]byte(b.name+"|> "), p...)` when the
name flag is set, `p` unchanged otherwise.  (On underlying-write success
the method then reports `(len(p), nil)` to its caller.) -/
def FileWriter.Write (b : FileWriter) (p : List Char) : List Char :=
  if b.hasNameTag then (b.name ++ ['|', '>', ' ']) ++ p else p

/-- Split a byte sequence into its newline-separated lines (the final
newline, if any, terminates the last line rather than opening an empty
one is *not* assumed: splitting `"a\n"` gives `["a", ""]`). -/
def splitLines : List Char → List (List Char)
  | [] => [[]]
  | c :: rest =>
    if c = '\n' then [] :: splitLines rest
    else
      match splitLines rest with
      | [] => [[c]]
      | l :: ls => (c :: l) :: ls

/-!  Basic facts about the dispatch loop. -/

theorem dispatchLoop_pos (cfg : Config) (i : Int) (h1 : i < cfg.Limit)
    (h2 : 0 < cfg.BatchSize) :
    dispatchLoop cfg i =
      mkReq cfg i (batchSizeAt cfg i) :: dispatchLoop cfg (i + cfg.BatchSize) := by
  rw [dispatchLoop]
  simp [h1, h2]

theorem dispatchLoop_neg (cfg : Config) (i : Int)
    (h1 : ¬ (i < cfg.Limit ∧ 0 < cfg.BatchSize)) :
    dispatchLoop cfg i = [] := by
  rw [dispatchLoop]
  simp [h1]

/-- Index `k` is a dispatched job exactly when its cursor value
`i + k * batchSize` is still below the limit. -/
theorem dispatchLoop_lt_length (cfg : Config) (hs : 0 < cfg.BatchSize) (i : Int) :
    ∀ (k : Nat), k < (dispatchLoop cfg i).length ↔ i + k * cfg.BatchSize < cfg.Limit := by
  by_cases h1 : i < cfg.Limit
  · have ih := dispatchLoop_lt_length cfg hs (i + cfg.BatchSize)
    intro k
    rw [dispatchLoop_pos cfg i h1 hs]
    match k with
    | 0 => simpa using h1
    | k + 1 =>
      rw [List.length_cons, Nat.add_lt_add_iff_right, ih k]
      push_cast
      constructor <;> intro h <;> linarith
  · rw [dispatchLoop_neg cfg i (by tauto)]
    intro k
    simp only [List.length_nil, Nat.not_lt_zero, false_iff]
    have : (0:ℤ) ≤ k * cfg.BatchSize := by positivity
    omega
termination_by (cfg.Limit - i).toNat
decreasing_by omega

/-- The `k`-th dispatched job: offset `i + k * batchSize`, truncated size. -/
theorem dispatchLoop_getElem (cfg : Config) (hs : 0 < cfg.BatchSize) (i : Int) :
    ∀ (k : Nat) (hk : k < (dispatchLoop cfg i).length),
      (dispatchLoop cfg i)[k] =
        mkReq cfg (i + k * cfg.BatchSize)
          (batchSizeAt cfg (i + k * cfg.BatchSize)) := by
  by_cases h1 : i < cfg.Limit
  · have ih := dispatchLoop_getElem cfg hs (i + cfg.BatchSize)
    intro k hk
    match k with
    | 0 => simp [dispatchLoop_pos cfg i h1 hs]
    | k + 1 =>
      rw [List.getElem_of_eq (dispatchLoop_pos cfg i h1 hs)]
      simp only [List.getElem_cons_succ]
      rw [dispatchLoop_pos cfg i h1 hs] at hk
      rw [ih k (by simpa using hk)]
      have harith : i + cfg.BatchSize + (k:ℤ) * cfg.BatchSize =
          i + ((k:ℤ) + 1) * cfg.BatchSize := by ring
      push_cast
      rw [harith]
  · intro k hk
    rw [dispatchLoop_neg cfg i (by tauto)] at hk
    simp at hk
termination_by (cfg.Limit - i).toNat
decreasing_by omega

/-- The number of dispatched jobs is `ceil((limit - i) / batchSize)`,
written with natural-number arithmetic as `(d + (s - 1)) / s`. -/
theorem dispatchLoop_length (cfg : Config) (hs : 0 < cfg.BatchSize) (i : Int) :
    (dispatchLoop cfg i).length =
      ((cfg.Limit - i).toNat + (cfg.BatchSize.toNat - 1)) / cfg.BatchSize.toNat := by
  by_cases h1 : i < cfg.Limit
  · have ih := dispatchLoop_length cfg hs (i + cfg.BatchSize)
    rw [dispatchLoop_pos cfg i h1 hs, List.length_cons, ih]
    have hsn : 0 < cfg.BatchSize.toNat := by omega
    have hn : 0 < (cfg.Limit - i).toNat := by omega
    have h2 : (cfg.Limit - (i + cfg.BatchSize)).toNat =
        (cfg.Limit - i).toNat - cfg.BatchSize.toNat := by omega
    rw [h2]
    set s := cfg.BatchSize.toNat with hsdef
    set n := (cfg.Limit - i).toNat with hndef
    rcases le_or_lt s n with hc | hc
    · have e1 : n - s + (s - 1) = (n - 1) := by omega
      have e2 : n + (s - 1) = (n - 1) + s := by omega
      rw [e1, e2, Nat.add_div_right _ hsn]
    · have e1 : n - s + (s - 1) = s - 1 := by omega
      have e2 : n + (s - 1) = (n - 1) + s := by omega
      rw [e1, e2, Nat.add_div_right _ hsn,
        Nat.div_eq_of_lt (by omega), Nat.div_eq_of_lt (by omega)]
  · rw [dispatchLoop_neg cfg i (by tauto), List.length_nil]
    have h2 : (cfg.Limit - i).toNat = 0 := by omega
    rw [h2, Nat.zero_add, Nat.div_eq_of_lt (by omega)]
termination_by (cfg.Limit - i).toNat
decreasing_by omega

/-- The truncation is exactly `min batchSize (limit - cursor)`. -/
theorem batchSizeAt_eq_min (cfg : Config) (i : Int) :
    batchSizeAt cfg i = min cfg.BatchSize (cfg.Limit - i) := by
  unfold batchSizeAt
  rw [min_def]
  split <;> split <;> omega

/-- A configuration accepted by `Config.Validate` satisfies the data-model
invariant. -/
theorem validate_none_bounds (fs : FS) (c : Config) (hv : Config.Validate fs c = none) :
    0 < c.Limit ∧ 0 ≤ c.Offset ∧ c.Offset ≤ c.Limit ∧ 0 < c.BatchSize ∧
    0 < c.Timeout ∧ 0 < c.Parallel ∧ c.Shell ≠ "" ∧ c.Command ≠ "" := by
  unfold Config.Validate at hv
  split at hv
  · cases hv
  split at hv
  · cases hv
  split at hv
  · cases hv
  split at hv
  · cases hv
  split at hv
  · cases hv
  split at hv
  · cases hv
  split at hv
  · cases hv
  split at hv
  · cases hv
  split at hv
  · cases hv
  refine ⟨by omega, by omega, by omega, by omega, by omega, by omega, ?_, ?_⟩ <;> assumption


/-- The spec's worked example: offset 0, limit 2500, batch size 1000. -/
def exampleCfg : Config :=
  { Shell := "/bin/sh", ShellArgs := ["-c"], Command := "echo", StdIn := "",
    WorkingDirectory := "", Limit := 2500, Offset := 0, BatchSize := 1000,
    Timeout := 1, Parallel := 10, Retry := 0, LogDir := "", LogToStdErr := true }

theorem exampleCfg_jobs :
    (dispatchJobs exampleCfg).map (fun r => (r.Offset, r.BatchSize)) =
      [(0, 1000), (1000, 1000), (2000, 500)] := by
  rw [dispatchJobs, dispatchLoop, dispatchLoop, dispatchLoop, dispatchLoop]
  norm_num [batchSizeAt, mkReq, exampleCfg]

theorem dispatchJobs_cover (cfg : Config) (hs : 0 < cfg.BatchSize)
    (x : Int) (hx1 : cfg.Offset ≤ x) (hx2 : x < cfg.Limit) :
    ∃ (k : Nat) (hk : k < (dispatchJobs cfg).length),
      (dispatchJobs cfg)[k].Offset ≤ x ∧
      x < (dispatchJobs cfg)[k].Offset + (dispatchJobs cfg)[k].BatchSize := by
  have hlen := dispatchLoop_lt_length cfg hs cfg.Offset
  have hget := dispatchLoop_getElem cfg hs cfg.Offset
  set B := cfg.BatchSize with hBdef
  set O := cfg.Offset with hOdef
  set d : Nat := (x - O).toNat with hddef
  set s : Nat := B.toNat with hsdef
  have hs' : 0 < s := by omega
  have hdm := Nat.div_add_mod d s
  have hmod : d % s < s := Nat.mod_lt _ hs'
  set q := d / s with hqdef
  set r := d % s with hrdef
  have hdmZ : (s : Int) * (q : Int) + (r : Int) = (d : Int) := by exact_mod_cast hdm
  have hmodZ : (r : Int) < (s : Int) := by exact_mod_cast hmod
  have hrnn : (0 : Int) ≤ (r : Int) := by positivity
  have hsB : ((s : Nat) : Int) = B := by omega
  have hdcast : ((d : Nat) : Int) = x - O := by omega
  rw [hsB, hdcast] at hdmZ
  rw [hsB] at hmodZ
  have h1 : O + (q : Int) * B ≤ x := by
    have := mul_comm (q : Int) B
    linarith
  have h2 : x < O + (q : Int) * B + B := by
    have := mul_comm (q : Int) B
    linarith
  have hk : q < (dispatchJobs cfg).length := by
    simp only [dispatchJobs]
    rw [hlen q]
    omega
  refine ⟨q, hk, ?_, ?_⟩
  · have hk' : q < (dispatchLoop cfg O).length := by simpa [dispatchJobs] using hk
    simp only [dispatchJobs]
    rw [hget q hk']
    simpa [mkReq] using h1
  · have hk' : q < (dispatchLoop cfg O).length := by simpa [dispatchJobs] using hk
    simp only [dispatchJobs]
    rw [hget q hk']
    simp only [mkReq, batchSizeAt_eq_min]
    rcases le_total B (cfg.Limit - (O + (q : Int) * B)) with hc | hc
    · rw [min_eq_left hc]
      omega
    · rw [min_eq_right hc]
      omega



/-- C1.  For every configuration accepted by validation with
`offset < limit`, `StartExecution` dispatches jobs whose offsets are
`offset, offset + batchSize, offset + 2*batchSize, ...` (ascending), each
job's size is `min(batchSize, limit - its offset)`, the sub-ranges are
contiguous (each next offset is the previous offset plus the previous
size), non-overlapping, lie in and cover exactly `[offset, limit)`, only
the last may be smaller than `batchSize`, and the number of dispatched
jobs is `ceil((limit - offset) / batchSize)`; the worked example
`offset=0, limit=2500, batchSize=1000` yields exactly the three jobs
`[0,1000) [1000,2000) [2000,2500)`. -/
theorem startExecution_partitions_range (fs : FS) (cfg : Config)
    (hv : Config.Validate fs cfg = none) (hlt : cfg.Offset < cfg.Limit) :
    (∀ b : Bool, (StartExecution fs cfg b).2 = dispatchJobs cfg) ∧
    (dispatchJobs cfg).length =
      ((cfg.Limit - cfg.Offset).toNat + (cfg.BatchSize.toNat - 1)) / cfg.BatchSize.toNat ∧
    (∀ (k : Nat) (hk : k < (dispatchJobs cfg).length),
      (dispatchJobs cfg)[k].Offset = cfg.Offset + k * cfg.BatchSize ∧
      (dispatchJobs cfg)[k].BatchSize =
        min cfg.BatchSize (cfg.Limit - (cfg.Offset + k * cfg.BatchSize)) ∧
      cfg.Offset ≤ (dispatchJobs cfg)[k].Offset ∧
      0 < (dispatchJobs cfg)[k].BatchSize ∧
      (dispatchJobs cfg)[k].BatchSize ≤ cfg.BatchSize ∧
      (dispatchJobs cfg)[k].Offset + (dispatchJobs cfg)[k].BatchSize ≤ cfg.Limit) ∧
    (∀ (k : Nat) (hk1 : k + 1 < (dispatchJobs cfg).length),
      (dispatchJobs cfg)[k].BatchSize = cfg.BatchSize ∧
      (dispatchJobs cfg)[k + 1].Offset =
        (dispatchJobs cfg)[k].Offset + (dispatchJobs cfg)[k].BatchSize) ∧
    (∀ x : Int, cfg.Offset ≤ x → x < cfg.Limit →
      ∃ (k : Nat) (hk : k < (dispatchJobs cfg).length),
        (dispatchJobs cfg)[k].Offset ≤ x ∧
        x < (dispatchJobs cfg)[k].Offset + (dispatchJobs cfg)[k].BatchSize) ∧
    (∀ (k j : Nat) (hk : k < (dispatchJobs cfg).length)
        (hj : j < (dispatchJobs cfg).length), k < j →
      (dispatchJobs cfg)[k].Offset + (dispatchJobs cfg)[k].BatchSize ≤
        (dispatchJobs cfg)[j].Offset) ∧
    (dispatchJobs exampleCfg).map (fun r => (r.Offset, r.BatchSize)) =
      [(0, 1000), (1000, 1000), (2000, 500)] := by
  obtain ⟨hL, hO, hOL, hB, -, -, -, -⟩ := validate_none_bounds fs cfg hv
  have hlen := dispatchLoop_lt_length cfg hB cfg.Offset
  have hget := dispatchLoop_getElem cfg hB cfg.Offset
  refine ⟨?_, ?_, ?_, ?_, ?_, ?_, exampleCfg_jobs⟩
  · intro b
    simp only [StartExecution, hv]
  · simpa [dispatchJobs] using dispatchLoop_length cfg hB cfg.Offset
  · intro k hk
    have hk' : k < (dispatchLoop cfg cfg.Offset).length := by
      simpa [dispatchJobs] using hk
    have hcursor : cfg.Offset + (k : Int) * cfg.BatchSize < cfg.Limit := (hlen k).1 hk'
    have hknn : (0 : Int) ≤ (k : Int) * cfg.BatchSize := by positivity
    simp only [dispatchJobs]
    rw [hget k hk']
    simp only [mkReq, batchSizeAt_eq_min]
    refine ⟨by trivial, by trivial, by omega, ?_, ?_, ?_⟩
    · rcases le_total cfg.BatchSize (cfg.Limit - (cfg.Offset + (k : Int) * cfg.BatchSize))
        with hc | hc
      · rw [min_eq_left hc]; omega
      · rw [min_eq_right hc]; omega
    · exact min_le_left _ _
    · have := min_le_right cfg.BatchSize (cfg.Limit - (cfg.Offset + (k : Int) * cfg.BatchSize))
      omega
  · intro k hk1
    have hk1' : k + 1 < (dispatchLoop cfg cfg.Offset).length := by
      simpa [dispatchJobs] using hk1
    have hk' : k < (dispatchLoop cfg cfg.Offset).length := Nat.lt_of_succ_lt hk1'
    have hcursor : cfg.Offset + ((k : Int) + 1) * cfg.BatchSize < cfg.Limit := by
      have := (hlen (k + 1)).1 hk1'
      push_cast at this
      exact this
    have hfull : cfg.BatchSize ≤ cfg.Limit - (cfg.Offset + (k : Int) * cfg.BatchSize) := by
      nlinarith
    simp only [dispatchJobs]
    rw [hget k hk', hget (k + 1) hk1']
    simp only [mkReq, batchSizeAt_eq_min]
    constructor
    · rw [min_eq_left hfull]
    · rw [min_eq_left hfull]
      push_cast
      ring
  · exact dispatchJobs_cover cfg hB
  · intro k j hk hj hkj
    have hk' : k < (dispatchLoop cfg cfg.Offset).length := by
      simpa [dispatchJobs] using hk
    have hj' : j < (dispatchLoop cfg cfg.Offset).length := by
      simpa [dispatchJobs] using hj
    simp only [dispatchJobs]
    rw [hget k hk', hget j hj']
    simp only [mkReq, batchSizeAt_eq_min]
    have hmono : ((k : Int) + 1) * cfg.BatchSize ≤ (j : Int) * cfg.BatchSize := by
      have hkj' : (k : Int) + 1 ≤ (j : Int) := by exact_mod_cast hkj
      exact mul_le_mul_of_nonneg_right hkj' (le_of_lt hB)
    have := min_le_left cfg.BatchSize (cfg.Limit - (cfg.Offset + (k : Int) * cfg.BatchSize))
    nlinarith

/-- A filesystem in which every path is a directory (so both `os.Stat`
checks in `Config.Validate` pass). -/
def exampleFS : FS :=
  { stat := fun _ => StatRes.dir }

/-- Witness for C1: the worked-example configuration is accepted by
validation, satisfies `offset < limit`, and the job count is the ceiling
formula. -/
theorem startExecution_partitions_range_witness :
    (dispatchJobs exampleCfg).length =
      ((exampleCfg.Limit - exampleCfg.Offset).toNat +
        (exampleCfg.BatchSize.toNat - 1)) / exampleCfg.BatchSize.toNat :=
  (startExecution_partitions_range exampleFS exampleCfg rfl (by decide)).2.1

/-- A configuration meeting the claim C6 invariant `0 ≤ offset ≤ limit`,
`batchSize > 0`, `timeout > 0`, `workerCount > 0` with all required string
fields set, but with `offset == limit == 0`. -/
def zeroRangeCfg : Config :=
  { exampleCfg with Limit := 0, Offset := 0 }

/-- Counterexample for C6: with `offset == limit == 0` the code does not
complete successfully — `Config.Validate` rejects the configuration
(`limit cannot be zero or negative`) and `StartExecution` takes the
`log.Fatal` path, although the configuration satisfies the claim's
invariant (conjuncts listing it included). -/
theorem zero_offset_zero_limit_is_rejected :
    (0 ≤ zeroRangeCfg.Offset ∧ zeroRangeCfg.Offset ≤ zeroRangeCfg.Limit ∧
      0 < zeroRangeCfg.BatchSize ∧ 0 < zeroRangeCfg.Timeout ∧
      0 < zeroRangeCfg.Parallel ∧ zeroRangeCfg.Shell ≠ "" ∧
      zeroRangeCfg.Command ≠ "") ∧
    Config.Validate exampleFS zeroRangeCfg = some "limit cannot be zero or negative" ∧
    StartExecution exampleFS zeroRangeCfg false = (RunOutcome.fatal, []) ∧
    RunOutcome.fatal ≠ RunOutcome.ok := by
  refine ⟨by decide, rfl, rfl, by decide⟩

/-- C6 (amended): for every configuration accepted by validation (which
forces `limit ≥ 1`, so `offset == limit` implies `offset == limit > 0`),
if `limit == offset` the run dispatches zero jobs and, provided the root
context is not already dead, `StartExecution` returns success — this
excludes the rejected case `offset == limit == 0`. -/
theorem zero_jobs_when_offset_equals_limit (fs : FS) (cfg : Config)
    (hv : Config.Validate fs cfg = none) (heq : cfg.Offset = cfg.Limit) :
    dispatchJobs cfg = [] ∧
    StartExecution fs cfg false = (RunOutcome.ok, []) := by
  have hjobs : dispatchJobs cfg = [] :=
    dispatchLoop_neg cfg cfg.Offset (by omega)
  refine ⟨hjobs, ?_⟩
  simp only [StartExecution, hv, if_neg Bool.false_ne_true, hjobs]

/-- A validated configuration with `offset == limit == 5`. -/
def emptyRangeCfg : Config :=
  { exampleCfg with Limit := 5, Offset := 5 }

/-- Witness for the amended C6 at `offset == limit == 5`. -/
theorem zero_jobs_when_offset_equals_limit_witness :
    dispatchJobs emptyRangeCfg = [] ∧
    StartExecution exampleFS emptyRangeCfg false = (RunOutcome.ok, []) :=
  zero_jobs_when_offset_equals_limit exampleFS emptyRangeCfg rfl rfl

/-- A configuration that fails validation (empty shell). -/
def noShellCfg : Config :=
  { exampleCfg with Shell := "" }

/-- C4: on a validation failure the code does not return a non-nil error —
it calls `log.Fatal`, which terminates the whole process, so
`StartExecution` never returns at all (in the model: the outcome is
`fatal`, not `errMsg _`), contradicting the function's own documented
contract; it does abort before any worker starts or job is dispatched
(the returned job list is empty). -/
theorem validation_failure_is_fatal_not_error :
    Config.Validate exampleFS noShellCfg = some "shell is required" ∧
    StartExecution exampleFS noShellCfg false = (RunOutcome.fatal, []) ∧
    (∀ m : String, RunOutcome.fatal ≠ RunOutcome.errMsg m) := by
  refine ⟨rfl, rfl, fun m h => RunOutcome.noConfusion h⟩

/-- C8: for every configuration that passes validation, `StartExecution`
ends in exactly one of two ways, decided by which of the two `select`
branches fires first: a premature-termination error when the root context
dies before the outstanding-job counter reaches zero, `nil` when the
counter reaches zero first; the fatal path is impossible. -/
theorem startExecution_outcome_dichotomy (fs : FS) (cfg : Config)
    (hv : Config.Validate fs cfg = none) :
    ∀ b : Bool,
      ((StartExecution fs cfg b).1 =
          RunOutcome.errMsg "premature execution killed by a dead context" ↔ b = true) ∧
      ((StartExecution fs cfg b).1 = RunOutcome.ok ↔ b = false) ∧
      (StartExecution fs cfg b).1 ≠ RunOutcome.fatal := by
  intro b
  simp only [StartExecution, hv]
  cases b <;> simp

/-- Witness for C8 at the worked-example configuration with the context
cancelled first. -/
theorem startExecution_outcome_dichotomy_witness :
    ((StartExecution exampleFS exampleCfg true).1 =
        RunOutcome.errMsg "premature execution killed by a dead context" ↔ true = true) ∧
    ((StartExecution exampleFS exampleCfg true).1 = RunOutcome.ok ↔ true = false) ∧
    (StartExecution exampleFS exampleCfg true).1 ≠ RunOutcome.fatal :=
  startExecution_outcome_dichotomy exampleFS exampleCfg rfl true

/-- C3: one `wg.Done()` fires per received `JobRequest`, whatever the
outcomes: for every render function, every OS behaviour and every finite
request sequence a worker receives, the number of `wgDone` events in its
trace equals the number of requests. -/
theorem processor_decrements_once_per_request (render : RenderFn)
    (envs : Nat → Nat → AttemptEnv) (reqs : List ExecRequest) :
    (processor render envs reqs).count WorkerEvent.wgDone = reqs.length := by
  induction reqs generalizing envs with
  | nil => rfl
  | cons r rest ih =>
    simp only [processor, List.count_append, List.length_cons]
    rw [ih]
    have h0 : ((runJob render (envs 0) r).map WorkerEvent.attempt).count
        WorkerEvent.wgDone = 0 := by
      rw [List.count_eq_zero]
      intro hmem
      obtain ⟨a, -, ha⟩ := List.mem_map.1 hmem
      cases ha
    rw [h0]
    simp [List.count_cons]
    omega

/-- With the retry-loop variant `Retry + 1 - TryCount` supplied as fuel,
a request whose `prepareArgs` fails at every `TryCount` produces exactly
one `renderFailed` event per remaining attempt. -/
theorem runJobAux_render_always_fails (render : RenderFn) (envs : Nat → AttemptEnv) :
    ∀ (fuel : Nat) (r : ExecRequest),
      (∀ tc, ∃ e, prepareArgs render { r with TryCount := tc } = Except.error e) →
      fuel = r.Retry + 1 - r.TryCount →
      runJobAux render envs fuel r = List.replicate fuel AttemptResult.renderFailed := by
  intro fuel
  induction fuel with
  | zero =>
    intro r hfail hfuel
    rfl
  | succ fuel ih =>
    intro r hfail hfuel
    have hguard : r.TryCount ≤ r.Retry := by omega
    obtain ⟨e, he⟩ := hfail r.TryCount
    have hr : ({ r with TryCount := r.TryCount } : ExecRequest) = r := rfl
    rw [hr] at he
    simp only [runJobAux, if_pos hguard, process, he]
    rw [ih { r with TryCount := r.TryCount + 1 } (fun tc => hfail tc) (by simp; omega)]
    rfl

/-- No iteration of a trace made of render failures reached the
subprocess supervisor. -/
theorem spawnInvocations_replicate_renderFailed (n : Nat) :
    spawnInvocations (List.replicate n AttemptResult.renderFailed) = 0 := by
  induction n with
  | zero => rfl
  | succ n ih =>
    simp [List.replicate_succ, spawnInvocations, List.filter, invokedSpawn]

/-- C2 (amended): a render failure is retried like any other failure — the
attempt counter is incremented and the loop re-runs while
`TryCount ≤ Retry`.  When `prepareArgs` fails at every attempt the job
produces `Retry + 1 - TryCount` render-failure events (not one) and the
subprocess supervisor is never invoked. -/
theorem render_failure_retried_supervisor_never_invoked (render : RenderFn)
    (envs : Nat → AttemptEnv) (r : ExecRequest)
    (hfail : ∀ tc, ∃ e, prepareArgs render { r with TryCount := tc } = Except.error e) :
    runJob render envs r =
      List.replicate (r.Retry + 1 - r.TryCount) AttemptResult.renderFailed ∧
    spawnInvocations (runJob render envs r) = 0 := by
  have h := runJobAux_render_always_fails render envs (r.Retry + 1 - r.TryCount) r hfail rfl
  exact ⟨h, by rw [runJob, h]; exact spawnInvocations_replicate_renderFailed _⟩

/-- A render function that always fails (e.g. a malformed template). -/
def failingRender : RenderFn := fun _ _ => Except.error "template parse error"

/-- A render function that fails exactly when the variable map carries
`tryCount = 0` (template functions see `tryCount`, so this is a legal
renderer behaviour). -/
def tryCountRender : RenderFn := fun _ vars =>
  match vars.lookup "tryCount" with
  | some 0 => Except.error "template error on first try"
  | _ => Except.ok "rendered"

/-- OS behaviour of a clean attempt: pipes fine, process exits 0. -/
def okEnv : AttemptEnv :=
  { stdoutPipeErr := none, stderrPipeErr := none, stdinPipeErr := none,
    outcome := SubprocOutcome.exited 0 }

/-- OS behaviour of a failing attempt: pipes fine, process exits 1. -/
def exit1Env : AttemptEnv :=
  { stdoutPipeErr := none, stderrPipeErr := none, stdinPipeErr := none,
    outcome := SubprocOutcome.exited 1 }

/-- A job request with one retry left and `TryCount = 0`. -/
def sampleReq : ExecRequest :=
  { Command := "curl {{offset}}", StdIn := "", Offset := 0, BatchSize := 1000,
    Shell := "/bin/sh", ShellArgs := ["-c"], WorkingDirectory := "", Timeout := 1,
    Retry := 1, TryCount := 0, logRoot := "", logToErr := false }

/-- Counterexample for C2: a job whose command-template rendering fails on
the first attempt is retried (the trace has two attempts, not one), and
the subprocess supervisor *is* invoked — on the second attempt, whose
render (seeing `tryCount = 1`) succeeds. -/
theorem render_failure_abandoned_immediately_cex :
    runJob tryCountRender (fun _ => okEnv) sampleReq =
      [AttemptResult.renderFailed, AttemptResult.succeeded] ∧
    spawnInvocations (runJob tryCountRender (fun _ => okEnv) sampleReq) = 1 ∧
    (runJob tryCountRender (fun _ => okEnv) sampleReq).length = 2 := by
  refine ⟨by decide, by decide, by decide⟩

/-- Witness for the amended C2: with an always-failing renderer and retry
budget 1, the job yields two render failures and zero supervisor
invocations. -/
theorem render_failure_retried_supervisor_never_invoked_witness :
    runJob failingRender (fun _ => okEnv) sampleReq =
      List.replicate (sampleReq.Retry + 1 - sampleReq.TryCount)
        AttemptResult.renderFailed ∧
    spawnInvocations (runJob failingRender (fun _ => okEnv) sampleReq) = 0 :=
  render_failure_retried_supervisor_never_invoked failingRender (fun _ => okEnv)
    sampleReq (fun tc => ⟨"template parse error", rfl⟩)

/-- C5: a job with retry budget 2 whose attempts at `TryCount` 0 and 1 fail
and whose attempt at `TryCount` 2 succeeds invokes the subprocess
supervisor exactly 3 times, terminates as a success, and makes no further
attempts: the loop re-attempts while `TryCount ≤ Retry` and stops at the
first success. -/
theorem retry_twice_then_success (render : RenderFn) (envs : Nat → AttemptEnv)
    (r : ExecRequest) (hR : r.Retry = 2) (hT : r.TryCount = 0)
    (h0 : process render (envs 0) { r with TryCount := 0 } = AttemptResult.spawnFailed)
    (h1 : process render (envs 1) { r with TryCount := 1 } = AttemptResult.spawnFailed)
    (h2 : process render (envs 2) { r with TryCount := 2 } = AttemptResult.succeeded) :
    runJob render envs r =
      [AttemptResult.spawnFailed, AttemptResult.spawnFailed, AttemptResult.succeeded] ∧
    spawnInvocations (runJob render envs r) = 3 := by
  obtain ⟨cmd, sin, off, bs, sh, sha, wd, tmo, ret, tc, lr, le⟩ := r
  simp only at hR hT h0 h1 h2
  subst hR
  subst hT
  have hstep : runJob render envs
      ⟨cmd, sin, off, bs, sh, sha, wd, tmo, 2, 0, lr, le⟩ =
      runJobAux render envs 3 ⟨cmd, sin, off, bs, sh, sha, wd, tmo, 2, 0, lr, le⟩ := rfl
  rw [hstep]
  simp only [runJobAux, h0, h1, h2]
  norm_num [spawnInvocations, invokedSpawn, List.filter]

/-- A renderer that always succeeds. -/
def alwaysOkRender : RenderFn := fun _ _ => Except.ok "rendered"

/-- OS behaviour: the first two attempts exit 1, later attempts exit 0. -/
def flakyEnvs : Nat → AttemptEnv := fun tc => if tc < 2 then exit1Env else okEnv

/-- A job request with retry budget 2 and `TryCount = 0`. -/
def retryReq : ExecRequest := { sampleReq with Retry := 2 }

/-- Witness for C5 at a concrete renderer, OS behaviour and request. -/
theorem retry_twice_then_success_witness :
    runJob alwaysOkRender flakyEnvs retryReq =
      [AttemptResult.spawnFailed, AttemptResult.spawnFailed, AttemptResult.succeeded] ∧
    spawnInvocations (runJob alwaysOkRender flakyEnvs retryReq) = 3 :=
  retry_twice_then_success alwaysOkRender flakyEnvs retryReq rfl rfl
    (by decide) (by decide) (by decide)

/-- C7 (amended): with the pipes wired successfully, `spawnProcess` returns
`nil` iff the process exits with code 0; a non-zero exit code `c` is
reported as the failure `process exited with non-zero status: c`; and a
failure to start the process at all is reported as a failure — but through
the same channel, as the constant signal `1`, so it is *not* distinct from
a process exiting with code 1. -/
theorem spawnProcess_exit_classification (env : AttemptEnv) (program : String)
    (args : List String) (wd stdin : String) (out : OutSink)
    (hp1 : env.stdoutPipeErr = none) (hp2 : env.stderrPipeErr = none)
    (hp3 : env.stdinPipeErr = none) :
    (spawnProcess env program args wd stdin out = Except.ok () ↔
      env.outcome = SubprocOutcome.exited 0) ∧
    (∀ c : Int, env.outcome = SubprocOutcome.exited c → c ≠ 0 →
      spawnProcess env program args wd stdin out =
        Except.error ("process exited with non-zero status: " ++ toString c)) ∧
    (env.outcome = SubprocOutcome.startFailure →
      spawnProcess env program args wd stdin out =
        Except.error ("process exited with non-zero status: " ++ toString (1 : Int))) := by
  obtain ⟨a, b, c, oc⟩ := env
  simp only at hp1 hp2 hp3
  subst hp1
  subst hp2
  subst hp3
  refine ⟨?_, ?_, ?_⟩
  · cases oc with
    | startFailure => simp [spawnProcess, connectPipes, spawnSubprocess]
    | waitFailure => simp [spawnProcess, connectPipes, spawnSubprocess]
    | exited ec =>
      by_cases hec : ec = 0
      · subst hec
        simp [spawnProcess, connectPipes, spawnSubprocess]
      · simp [spawnProcess, connectPipes, spawnSubprocess, hec]
  · intro ec hoc hec
    simp only at hoc
    subst hoc
    simp [spawnProcess, connectPipes, spawnSubprocess, hec]
  · intro hoc
    simp only at hoc
    subst hoc
    simp [spawnProcess, connectPipes, spawnSubprocess]

/-- OS behaviour: pipes fine, `proc.Start()` itself fails (binary missing,
permission denied, ...). -/
def startFailEnv : AttemptEnv :=
  { stdoutPipeErr := none, stderrPipeErr := none, stdinPipeErr := none,
    outcome := SubprocOutcome.startFailure }

/-- Counterexample for C7: a failure to start the process produces exactly
the same result value as a process that exits with code 1 — the failures
are not distinct. -/
theorem start_failure_equals_exit_code_one :
    spawnProcess startFailEnv "/bin/sh" ["-c", "x"] "" "" (OutSink.fileSink "n" "") =
      spawnProcess exit1Env "/bin/sh" ["-c", "x"] "" "" (OutSink.fileSink "n" "") ∧
    spawnProcess startFailEnv "/bin/sh" ["-c", "x"] "" "" (OutSink.fileSink "n" "") =
      Except.error "process exited with non-zero status: 1" := by
  refine ⟨rfl, rfl⟩

/-- Witness for the amended C7, instantiated at the start-failure
behaviour. -/
theorem spawnProcess_exit_classification_witness :
    (spawnProcess startFailEnv "/bin/sh" ["-c", "x"] "" "" (OutSink.fileSink "n" "") =
        Except.ok () ↔ startFailEnv.outcome = SubprocOutcome.exited 0) ∧
    (∀ c : Int, startFailEnv.outcome = SubprocOutcome.exited c → c ≠ 0 →
      spawnProcess startFailEnv "/bin/sh" ["-c", "x"] "" "" (OutSink.fileSink "n" "") =
        Except.error ("process exited with non-zero status: " ++ toString c)) ∧
    (startFailEnv.outcome = SubprocOutcome.startFailure →
      spawnProcess startFailEnv "/bin/sh" ["-c", "x"] "" "" (OutSink.fileSink "n" "") =
        Except.error ("process exited with non-zero status: " ++ toString (1 : Int))) :=
  spawnProcess_exit_classification startFailEnv "/bin/sh" ["-c", "x"] "" ""
    (OutSink.fileSink "n" "") rfl rfl rfl

/-- A newline-free byte sequence is a single line. -/
theorem splitLines_no_newline (s : List Char) (h : Char.ofNat 10 ∉ s) :
    splitLines s = [s] := by
  induction s with
  | nil => rfl
  | cons c rest ih =>
    have hc : ¬ c = Char.ofNat 10 := fun e => h (e ▸ List.mem_cons_self c rest)
    rw [splitLines, if_neg (by simpa using hc),
      ih (fun hm => h (List.mem_cons_of_mem _ hm))]

/-- C9 (amended): the shared-stream backend prepends the job-name tag
`name|> ` exactly once per `Write` call, at the start of the payload; so
when a `Write` payload is a single line (no embedded newline, and the job
name itself has none), every forwarded line carries the tag — but a
payload containing embedded newlines gets the tag on its first line
only. -/
theorem stderr_writer_tags_once_per_write (name p : List Char)
    (hn : '\n' ∉ name) (hp : '\n' ∉ p) :
    FileWriter.Write (NewStdErrWriter name) p = name ++ ['|', '>', ' '] ++ p ∧
    (∀ l ∈ splitLines (FileWriter.Write (NewStdErrWriter name) p),
      l.take (name.length + 3) = name ++ ['|', '>', ' ']) := by
  have hbuff : FileWriter.Write (NewStdErrWriter name) p =
      (name ++ ['|', '>', ' ']) ++ p := rfl
  refine ⟨hbuff, ?_⟩
  intro l hl
  have hnl : Char.ofNat 10 ∉ (name ++ ['|', '>', ' ']) ++ p := by
    intro hmem
    rcases List.mem_append.1 hmem with hmem1 | hmem1
    · rcases List.mem_append.1 hmem1 with hmem2 | hmem2
      · exact hn (by simpa using hmem2)
      · exact absurd hmem2 (by decide)
    · exact hp (by simpa using hmem1)
  rw [hbuff, splitLines_no_newline _ hnl] at hl
  rcases List.mem_singleton.1 hl with rfl
  have hlen : (name ++ ['|', '>', ' ']).length = name.length + 3 := by simp
  rw [← hlen, List.take_left]

/-- Counterexample for C9: a single `Write` whose payload holds two
newline-separated lines forwards the tag on the first line only — the
second line `b` does not start with the `j|> ` tag. -/
theorem stderr_writer_tag_not_on_every_line_cex :
    FileWriter.Write (NewStdErrWriter ['j']) ['a', '\n', 'b'] =
      ['j', '|', '>', ' ', 'a', '\n', 'b'] ∧
    splitLines (FileWriter.Write (NewStdErrWriter ['j']) ['a', '\n', 'b']) =
      [['j', '|', '>', ' ', 'a'], ['b']] ∧
    ¬ (∀ l ∈ splitLines (FileWriter.Write (NewStdErrWriter ['j']) ['a', '\n', 'b']),
        l.take 4 = ['j', '|', '>', ' ']) := by
  refine ⟨by decide, by decide, by decide⟩

/-- Witness for the amended C9 at job name `j` and single-line payload
`ab`. -/
theorem stderr_writer_tags_once_per_write_witness :
    FileWriter.Write (NewStdErrWriter ['j']) ['a', 'b'] =
      ['j'] ++ ['|', '>', ' '] ++ ['a', 'b'] ∧
    (∀ l ∈ splitLines (FileWriter.Write (NewStdErrWriter ['j']) ['a', 'b']),
      l.take (List.length ['j'] + 3) = ['j'] ++ ['|', '>', ' ']) :=
  stderr_writer_tags_once_per_write ['j'] ['a', 'b'] (by decide) (by decide)

/-- Counterexample for C10: a pipe whose `Write` persistently reports an
error with zero bytes written (`n = 0`) makes the stdin-writing loop spin
forever — no amount of fuel completes it (here with a 1-byte stdin). -/
theorem stdin_loop_zero_progress_diverges :
    ¬ stdinLoopTerminates (fun _ _ => 0) 1 := by
  rintro ⟨fuel, h⟩
  suffices hall : ∀ (f c t : Nat), t < 1 → stdinLoop (fun _ _ => 0) 1 f c t = none by
    rw [hall fuel 0 0 (by decide)] at h
    cases h
  intro f
  induction f with
  | zero =>
    intro c t ht
    simp [stdinLoop, ht]
  | succ f ih =>
    intro c t ht
    simp only [stdinLoop, if_pos ht]
    rw [ih (c + 1) (t + 0) (by omega)]

/-- The stdin loop with per-call progress: fuel `mustWrite - total` always
suffices, the consumed chunks are gapless from `total`, and the pipe is
closed at the end. -/
theorem stdinLoop_progress_aux (writeRes : Nat → Nat → Nat) (mustWrite : Nat)
    (hprog : ∀ k rem, 0 < rem → 0 < writeRes k rem)
    (hbound : ∀ k rem, writeRes k rem ≤ rem) :
    ∀ (fuel call total : Nat), total ≤ mustWrite → mustWrite - total ≤ fuel →
      ∃ chunks, stdinLoop writeRes mustWrite fuel call total = some (chunks, true) ∧
        chunksEnd total chunks = some mustWrite := by
  intro fuel
  induction fuel with
  | zero =>
    intro call total h1 h2
    have heq : total = mustWrite := by omega
    refine ⟨[], ?_, ?_⟩
    · simp [stdinLoop, heq]
    · simp [chunksEnd, heq]
  | succ fuel ih =>
    intro call total h1 h2
    by_cases hlt : total < mustWrite
    · have hn1 : 0 < writeRes call (mustWrite - total) := hprog _ _ (by omega)
      have hn2 : writeRes call (mustWrite - total) ≤ mustWrite - total := hbound _ _
      obtain ⟨rest, hrest, hend⟩ :=
        ih (call + 1) (total + writeRes call (mustWrite - total)) (by omega) (by omega)
      refine ⟨(total, writeRes call (mustWrite - total)) :: rest, ?_, ?_⟩
      · simp only [stdinLoop, if_pos hlt]
        rw [hrest]
      · simp only [chunksEnd, if_pos rfl]
        exact hend
    · have heq : total = mustWrite := by omega
      refine ⟨[], by simp [stdinLoop, hlt], by simp [chunksEnd, heq]⟩

/-- C10 (amended): the stdin-writing loop terminates exactly when the
reported write counts accumulate to the full stdin length — in particular
it spins forever on persistent zero-byte error results — and whenever
every `Write` reports progress (at least one byte, at most the remaining
slice, as the `io.Writer` contract requires of a successful write), it
terminates within `mustWrite` iterations having written exactly the whole
stdin byte range `[0, mustWrite)` in order and gaplessly, after which it
closes the pipe. -/
theorem stdin_loop_full_write_on_progress (writeRes : Nat → Nat → Nat)
    (mustWrite : Nat)
    (hprog : ∀ k rem, 0 < rem → 0 < writeRes k rem)
    (hbound : ∀ k rem, writeRes k rem ≤ rem) :
    ∃ chunks, stdinLoop writeRes mustWrite mustWrite 0 0 = some (chunks, true) ∧
      chunksEnd 0 chunks = some mustWrite ∧
      stdinLoopTerminates writeRes mustWrite := by
  obtain ⟨chunks, hrun, hend⟩ :=
    stdinLoop_progress_aux writeRes mustWrite hprog hbound mustWrite 0 0
      (Nat.zero_le _) (by omega)
  exact ⟨chunks, hrun, hend, ⟨mustWrite, by rw [hrun]; rfl⟩⟩

/-- Witness for the amended C10: a pipe accepting each offered slice in
full drains a 3-byte stdin in one chunk and closes the pipe. -/
theorem stdin_loop_full_write_on_progress_witness :
    ∃ chunks, stdinLoop (fun _ rem => rem) 3 3 0 0 = some (chunks, true) ∧
      chunksEnd 0 chunks = some 3 ∧
      stdinLoopTerminates (fun _ rem => rem) 3 :=
  stdin_loop_full_write_on_progress (fun _ rem => rem) 3
    (fun _ _ h => h) (fun _ _ => Nat.le_refl _)
